import Mathlib

/-!
Verification of the patient record system (FastAPI JSON-file CRUD app).

The development shallowly embeds the Python source:
* `src/data.py` (canonical variant): patient schema with derived bmi/verdict,
  JSON-dict collection, auto-generated sequential IDs, renumbering on delete;
* `src/FastAPI_patient_management/main.py` (older variant): same schema except
  the `weight` field carries no `gt=0` constraint, and create uses the
  client-supplied id.

Python `dict`s (insertion-ordered, unique string keys) are embedded as
association lists `List (String × α)`; Python floats as `ℚ`; Python `round`
as exact decimal round-half-to-even; Python's stable `sorted` as a stable
insertion sort; I/O (`open`/`json.load`) as an explicit `FileState` input.
-/

/-! ## Schema and derived fields -/

/-- Error taxonomy of the handlers: 404 not-found, 422 pydantic validation,
400 bad sort arguments, 500 corrupted data file, 400 duplicate id
(older variant's create). -/
inductive Err where
  | notFound
  | validationError
  | invalidArgument
  | corruptData
  | alreadyExists
deriving DecidableEq

/-- Embedding of Python's `round(x, 2)`: round `x` to 2 decimal places,
ties going to the nearest even hundredth (Python rounds half to even). -/
def pyRound2 (x : ℚ) : ℚ :=
  let y := 100 * x
  let f := ⌊y⌋
  let r := y - (f : ℚ)
  let n : ℤ :=
    if r < 1/2 then f
    else if 1/2 < r then f + 1
    else if f % 2 = 0 then f else f + 1
  (n : ℚ) / 100

/-- The verdict threshold chain from `Patient.verdict` in `src/data.py`
(lines 24-32): successive `if bmi < …` tests. -/
def verdictOf (b : ℚ) : String :=
  if b < 18.5 then "Underweight"
  else if b < 25 then "Healthy weight"
  else if b < 30 then "Overweight"
  else "Obese"

/-- The gender literal set `Literal['male', 'female', 'others']`. -/
def genders : List String := ["male", "female", "others"]

/-- The `Patient` pydantic model's declared fields (`src/data.py` lines 7-14). -/
structure Patient where
  id : String
  name : String
  city : String
  age : ℤ
  gender : String
  height : ℚ
  weight : ℚ
deriving DecidableEq

/-- `Patient.bmi` computed field: `round(self.weight / (self.height ** 2), 2)`. -/
def Patient.bmi (p : Patient) : ℚ := pyRound2 (p.weight / p.height ^ 2)

/-- `Patient.verdict` computed field: threshold chain on `self.bmi`. -/
def Patient.verdict (p : Patient) : String := verdictOf p.bmi

/-- Raw (unvalidated) request fields for a full patient body. -/
structure RawPatient where
  id : String
  name : String
  city : String
  age : ℤ
  gender : String
  height : ℚ
  weight : ℚ
deriving DecidableEq

/-- Validation of a create body against `src/data.py`'s `Patient` model:
`age` gt 0, gender a member of the literal set, `height` gt 0, `weight` gt 0.
String fields have no emptiness constraint in the source. -/
def parsePatient (r : RawPatient) : Except Err Patient :=
  if 0 < r.age ∧ r.gender ∈ genders ∧ 0 < r.height ∧ 0 < r.weight then
    .ok ⟨r.id, r.name, r.city, r.age, r.gender, r.height, r.weight⟩
  else .error .validationError

/-- Validation against the older variant's `Patient` model
(`src/FastAPI_patient_management/main.py` lines 9-16): identical except that
`weight` has no `gt=0` constraint. -/
def parsePatientMain (r : RawPatient) : Except Err Patient :=
  if 0 < r.age ∧ r.gender ∈ genders ∧ 0 < r.height then
    .ok ⟨r.id, r.name, r.city, r.age, r.gender, r.height, r.weight⟩
  else .error .validationError

/-- The `PatientUpdate` model: every field optional (`default=None`). -/
structure PatientUpdate where
  name : Option String
  city : Option String
  age : Option ℤ
  gender : Option String
  height : Option ℚ
  weight : Option ℚ
deriving DecidableEq

/-- Validation of an update body: each numeric field, when supplied, must
satisfy the same `gt=0` constraint; gender, when supplied, the literal set
(identical in both source variants). -/
def parsePatientUpdate (u : PatientUpdate) : Except Err PatientUpdate :=
  if (u.age.all fun a => decide (0 < a)) &&
     (u.gender.all fun g => decide (g ∈ genders)) &&
     (u.height.all fun x => decide (0 < x)) &&
     (u.weight.all fun w => decide (0 < w)) then
    .ok u
  else .error .validationError

/-- A stored collection entry: `patient.model_dump(exclude=set-of-id)`,
which includes the computed fields `bmi` and `verdict`. -/
structure StoredPatient where
  name : String
  city : String
  age : ℤ
  gender : String
  height : ℚ
  weight : ℚ
  bmi : ℚ
  verdict : String
deriving DecidableEq

/-- `patient.model_dump(exclude=set-of-id)`. -/
def dumpPatient (p : Patient) : StoredPatient :=
  ⟨p.name, p.city, p.age, p.gender, p.height, p.weight, p.bmi, p.verdict⟩

/-! ## ID formatting and parsing

`get_next_patient_id` builds ids with the Python f-string `"P" + {n:03d}`
(zero-padded to width 3, widening naturally for larger numbers), and both it
and `renumber_patients` parse ids with `int(pid[1:])`. -/

/-- The character for a decimal digit (codepoint 48 + d). -/
def digitChar (d : ℕ) : Char := Char.ofNat (48 + d)

/-- Little-endian decimal digits, driven by explicit fuel so that the
definition is structurally recursive (and hence evaluable by the kernel). -/
def digitsAux10 : ℕ → ℕ → List ℕ
  | 0, _ => []
  | fuel + 1, n => if n = 0 then [] else n % 10 :: digitsAux10 fuel (n / 10)

/-- Little-endian decimal digits of `n` (empty for 0). -/
def digits10 (n : ℕ) : List ℕ := digitsAux10 n n

/-- Pad a little-endian digit list to length 3 (the `:03d` format width). -/
def pad3 (l : List ℕ) : List ℕ := l ++ List.replicate (3 - l.length) 0

/-- `f"P{n:03d}"`: the letter `P` followed by the decimal digits of `n`,
zero-padded on the left to width 3. -/
def fmt3 (n : ℕ) : String := ⟨'P' :: ((pad3 (digits10 n)).reverse.map digitChar)⟩

/-- Big-endian decimal value of a character list, as computed by Python's
`int()` on a digit string. -/
def digitsVal (cs : List Char) : ℕ := cs.foldl (fun a c => 10 * a + (c.toNat - 48)) 0

/-- `int(pid[1:])`: numeric suffix of a patient id. -/
def idSuffix (s : String) : ℕ := digitsVal (s.data.drop 1)

/-- An id of the shape produced and consumed by the source: `P` followed by
at least one decimal digit. -/
def WellFormedId (s : String) : Prop :=
  2 ≤ s.data.length ∧ s.data.head? = some 'P' ∧ ∀ c ∈ s.data.drop 1, c.isDigit

instance (s : String) : Decidable (WellFormedId s) := by
  unfold WellFormedId; infer_instance

/-- The dense sequential key run `P001, …, P{n}`. -/
def seqIds (n : ℕ) : List String := (List.range' 1 n).map fmt3

/-! ## Stable sorting

Python's `sorted(l, key=k)` is a stable sort; `sorted(l, key=k, reverse=True)`
is the stable sort by the reversed comparison (equal keys keep their original
relative order; CPython reverses, sorts, reverses). Both are embedded as a
stable insertion sort parameterized by a strict "must come before" test. -/

/-- Insert `a` after every element `b` that must stay before it (`lt b a`),
and before the first element that need not. -/
def insertByLt (lt : α → α → Bool) (a : α) : List α → List α
  | [] => [a]
  | b :: bs => if lt b a then b :: insertByLt lt a bs else a :: b :: bs

/-- Stable insertion sort: each element is inserted into the sorted tail and
lands before every tail element it is not strictly after. -/
def sortByLt (lt : α → α → Bool) : List α → List α
  | [] => []
  | a :: as => insertByLt lt a (sortByLt lt as)

/-! ## The collection and the record store

A Python dict keyed by patient id is an insertion-ordered association list
with unique keys. `data[k] = v` replaces in place when `k` exists and appends
otherwise; `del data[k]` removes the entry; `k in data` is key membership. -/

/-- `k in data`. -/
def hasKey (d : List (String × α)) (k : String) : Bool :=
  d.any fun kv => kv.1 == k

/-- `data[k] = v`: in-place replacement for an existing key, append for a
fresh one (Python dicts keep insertion order). -/
def dictSet (d : List (String × α)) (k : String) (v : α) : List (String × α) :=
  if hasKey d k then d.map fun kv => if kv.1 == k then (k, v) else kv
  else d ++ [(k, v)]

/-- State of the backing document `patient.json` as seen by `load_data`. -/
inductive FileState (α : Type) where
  | missing
  | malformed
  | wellFormed (c : List (String × α))

/-- `load_data` (`src/data.py` lines 47-55): `FileNotFoundError` yields the
empty dict, `json.JSONDecodeError` raises the corrupted-data error, and a
well-formed document is returned as parsed. -/
def load_data : FileState α → Except Err (List (String × α))
  | .missing => .ok []
  | .malformed => .error .corruptData
  | .wellFormed c => .ok c

/-- `max(int(pid[1:]) for pid in data.keys())` (0 when the dict is empty;
the source only evaluates it on a nonempty dict). -/
def maxSuffix (d : List (String × α)) : ℕ :=
  (d.map fun kv => idSuffix kv.1).foldl max 0

/-- `get_next_patient_id` (`src/data.py` lines 89-96): `P001` for an empty
collection, otherwise `f"P{max_id + 1:03d}"`. -/
def get_next_patient_id (d : List (String × α)) : String :=
  if d.isEmpty then "P001" else fmt3 (maxSuffix d + 1)

/-- `renumber_patients` (`src/data.py` lines 67-86): empty stays empty;
otherwise sort the items by the numeric part of the id (Python's stable
`sorted`) and rebuild the dict with ids `P001, P002, …` assigned by
`enumerate(…, start=1)`. -/
def renumber_patients (d : List (String × α)) : List (String × α) :=
  if d.isEmpty then []
  else
    (List.enumFrom 1 (sortByLt (fun a b => decide (idSuffix a.1 < idSuffix b.1)) d)).map
      fun p => (fmt3 p.1, p.2.2)

/-- `view_patient` (`src/data.py` lines 119-125): return the entry when the
id is present, else 404. -/
def view_patient (d : List (String × α)) (pid : String) : Except Err α :=
  match List.lookup pid d with
  | some v => .ok v
  | none => .error .notFound

/-- `create_patient` (`src/data.py` lines 151-168): auto-generate the next
id, store `patient.model_dump(exclude=set-of-id)` under it, save, and return
the new id together with the saved collection. -/
def create_patient (d : List (String × StoredPatient)) (p : Patient) :
    String × List (String × StoredPatient) :=
  let new_patient_id := get_next_patient_id d
  (new_patient_id, dictSet d new_patient_id (dumpPatient p))

/-- The merge in `update_patient`: fields present in the patch overwrite the
stored ones, the id is re-attached, and the result is rebuilt as a `Patient`
(whose constructor recomputes bmi and verdict). -/
def applyPatch (pid : String) (e : StoredPatient) (u : PatientUpdate) : Patient :=
  ⟨pid, u.name.getD e.name, u.city.getD e.city, u.age.getD e.age,
    u.gender.getD e.gender, u.height.getD e.height, u.weight.getD e.weight⟩

/-- The field constraints `Patient(**…)` re-checks when the merged record is
validated: `age`, `height`, `weight` strictly positive, gender in the
literal set. -/
def validFields (p : Patient) : Prop :=
  0 < p.age ∧ p.gender ∈ genders ∧ 0 < p.height ∧ 0 < p.weight

instance (p : Patient) : Decidable (validFields p) := by
  unfold validFields; infer_instance

/-- `update_patient` (`src/data.py` lines 171-198): 404 when the id is
absent; otherwise merge the provided fields, re-validate the whole record
through `Patient(**…)` (recomputing bmi/verdict), store it under the same id,
save, and return the saved collection and the updated entry. -/
def update_patient (d : List (String × StoredPatient)) (pid : String)
    (u : PatientUpdate) : Except Err (List (String × StoredPatient) × StoredPatient) :=
  match List.lookup pid d with
  | none => .error .notFound
  | some e =>
    let merged := applyPatch pid e u
    if validFields merged then
      let s := dumpPatient merged
      .ok (dictSet d pid s, s)
    else .error .validationError

/-- `delete_patient` (`src/data.py` lines 201-225): 404 when the id is
absent; otherwise remember the entry, delete it, renumber, save, and return
the deleted entry, the saved collection and its size. -/
def delete_patient (d : List (String × α)) (pid : String) :
    Except Err (α × List (String × α) × ℕ) :=
  match List.lookup pid d with
  | none => .error .notFound
  | some deleted =>
    let rest := d.eraseP fun kv => kv.1 == pid
    let renumbered := renumber_patients rest
    .ok (deleted, renumbered, renumbered.length)

/-- Content of the backing document after an update request: the collection
the handler saved, or the untouched document when it raised before saving. -/
def savedAfterUpdate (d : List (String × StoredPatient)) (pid : String)
    (u : PatientUpdate) : List (String × StoredPatient) :=
  match update_patient d pid u with
  | .ok r => r.1
  | .error _ => d

/-- Content of the backing document after a delete request. -/
def savedAfterDelete (d : List (String × α)) (pid : String) :
    List (String × α) :=
  match delete_patient d pid with
  | .ok r => r.2.1
  | .error _ => d

/-- `create_patient` of the older variant
(`src/FastAPI_patient_management/main.py` lines 99-111): reject a duplicate
client-supplied id, otherwise store under `patient.id`. -/
def create_patient_main (d : List (String × StoredPatient)) (p : Patient) :
    Except Err (List (String × StoredPatient)) :=
  if hasKey d p.id then .error .alreadyExists
  else .ok (dictSet d p.id (dumpPatient p))

/-! ## The sort handler

`sort_patients` validates `sort_by` and `order`, loads, and sorts
`data.values()` by `x.get(sort_by, 0)` with `reverse=(order == 'desc')`.
Since only the three numeric fields may be chosen, a loaded record is
embedded for this handler as an association list of numeric fields. -/

/-- A raw loaded record as the sort handler sees it: a JSON object whose
relevant fields are numeric. -/
abbrev SortRec := List (String × ℚ)

/-- `x.get(sort_by, 0)`: the field's value, or 0 when the field is absent. -/
def getNum (r : SortRec) (k : String) : ℚ := (List.lookup k r).getD 0

/-- `sorted(values, key=…, reverse=rev)`: Python's stable sort; with
`reverse=True` equal keys still keep their original relative order. -/
def pySorted (key : α → ℚ) (rev : Bool) (l : List α) : List α :=
  if rev then sortByLt (fun a b => decide (key b < key a)) l
  else sortByLt (fun a b => decide (key a < key b)) l

/-- The fields accepted by `sort_by`. -/
def valid_fields : List String := ["height", "weight", "bmi"]

/-- `sort_patients` (`src/data.py` lines 128-148): 400 for a bad field, then
400 for a bad order — both before `load_data()` runs — then sort the dict's
values. The load result is passed in explicitly so that the ordering of
validation and loading is visible. -/
def sort_patients (sort_by order : String)
    (loaded : Except Err (List (String × SortRec))) : Except Err (List SortRec) :=
  if sort_by ∈ valid_fields then
    if order ∈ (["asc", "desc"] : List String) then
      match loaded with
      | .error e => .error e
      | .ok data => .ok (pySorted (fun x => getNum x sort_by) (order == "desc")
          (data.map Prod.snd))
    else .error .invalidArgument
  else .error .invalidArgument

/-- The HTTP layer defaults `order` to `asc` (`Query('asc')`). -/
def sort_patients_default (sort_by : String)
    (loaded : Except Err (List (String × SortRec))) : Except Err (List SortRec) :=
  sort_patients sort_by "asc" loaded

/-! ## Reachable collection states -/

/-- Collection states reachable from the empty collection by successful
create, update and delete requests (the three mutating handlers). -/
inductive Reachable : List (String × StoredPatient) → Prop where
  | empty : Reachable []
  | create (d : List (String × StoredPatient)) (p : Patient) :
      Reachable d → Reachable (create_patient d p).2
  | update (d : List (String × StoredPatient)) (pid : String) (u : PatientUpdate)
      (d' : List (String × StoredPatient)) (s : StoredPatient) :
      Reachable d → update_patient d pid u = .ok (d', s) → Reachable d'
  | delete (d : List (String × StoredPatient)) (pid : String) (x : StoredPatient)
      (d' : List (String × StoredPatient)) (m : ℕ) :
      Reachable d → delete_patient d pid = .ok (x, d', m) → Reachable d'

/-! ## Concrete sample data for witnesses and counterexamples -/

/-- A sample stored entry used by concrete witnesses. -/
def spSample : StoredPatient := ⟨"Asha", "Pokhara", 30, "female", 1, 20, 20, "Healthy weight"⟩

/-- The patch that provides no fields. -/
def noUpdate : PatientUpdate := ⟨none, none, none, none, none, none⟩

/-- The patch that provides only a new weight. -/
def onlyWeight (w : ℚ) : PatientUpdate := ⟨none, none, none, none, none, some w⟩

/-- A sample valid patient body. -/
def pSample : Patient := ⟨"P900", "Asha", "Pokhara", 30, "female", 1, 20⟩

/-- A create body whose id is the empty string (all other fields valid). -/
def rawEmptyId : RawPatient := ⟨"", "Asha", "Pokhara", 30, "female", 1, 20⟩

/-- A create body with weight −5 kg (all other fields valid). -/
def rawBadWeight : RawPatient := ⟨"P001", "Hari", "Kathmandu", 30, "male", 2, -5⟩

/-- The patient `rawBadWeight` parses to in the older variant. -/
def pBadWeight : Patient := ⟨"P001", "Hari", "Kathmandu", 30, "male", 2, -5⟩

/-- Two loaded records with equal height but different other fields. -/
def sortRecA : SortRec := [("height", 5), ("weight", 1), ("bmi", 2)]

/-- See `sortRecA`. -/
def sortRecB : SortRec := [("height", 5), ("weight", 2), ("bmi", 3)]

/-- A collection with a height tie between two distinct records. -/
def tieColl : List (String × SortRec) := [("P001", sortRecA), ("P002", sortRecB)]

/-- Further sample stored entries. -/
def spB : StoredPatient := ⟨"Bina", "Butwal", 25, "female", 2, 60, 15, "Underweight"⟩

/-- See `spB`. -/
def spC : StoredPatient := ⟨"Chand", "Chitwan", 40, "male", 2, 80, 20, "Healthy weight"⟩

/-- A three-entry collection with dense ids. -/
def threeColl : List (String × StoredPatient) :=
  [("P001", spSample), ("P002", spB), ("P003", spC)]

/-! ## Lemmas: decimal digits and the id roundtrip -/

theorem digitsAux10_eq (fuel : ℕ) : ∀ n : ℕ, n ≤ fuel → digitsAux10 fuel n = Nat.digits 10 n := by
  induction fuel with
  | zero =>
    intro n hn
    interval_cases n
    simp [digitsAux10]
  | succ fuel ih =>
    intro n hn
    by_cases hz : n = 0
    · subst hz; simp [digitsAux10]
    · have hdiv : n / 10 < n := Nat.div_lt_self (Nat.pos_of_ne_zero hz) (by norm_num)
      rw [digitsAux10, if_neg hz, ih (n / 10) (by omega),
        Nat.digits_def' (by norm_num : (1:ℕ) < 10) (Nat.pos_of_ne_zero hz)]

theorem digits10_eq (n : ℕ) : digits10 n = Nat.digits 10 n :=
  digitsAux10_eq n n le_rfl

theorem digitChar_toNat : ∀ d : ℕ, d < 10 → (digitChar d).toNat = 48 + d := by decide

theorem digitChar_isDigit : ∀ d : ℕ, d < 10 → (digitChar d).isDigit = true := by decide

theorem foldl_base10 (L : List ℕ) (i : ℕ) :
    L.foldl (fun a d => 10 * a + d) i = i * 10 ^ L.length + Nat.ofDigits 10 L.reverse := by
  induction L generalizing i with
  | nil => simp
  | cons d L ih =>
    simp only [List.foldl_cons, List.reverse_cons, List.length_cons, ih,
      Nat.ofDigits_append, List.length_reverse]
    simp [Nat.ofDigits_cons, Nat.ofDigits_nil]
    ring

theorem digitsVal_map_digitChar (L : List ℕ) (hL : ∀ d ∈ L, d < 10) :
    digitsVal (L.map digitChar) = L.foldl (fun a d => 10 * a + d) 0 := by
  unfold digitsVal
  rw [List.foldl_map]
  have step : ∀ (l : List ℕ) (a : ℕ), (∀ x ∈ l, x < 10) →
      l.foldl (fun a c => 10 * a + ((digitChar c).toNat - 48)) a =
      l.foldl (fun a c => 10 * a + c) a := by
    intro l
    induction l with
    | nil => intro a _; rfl
    | cons y l ihl =>
      intro a hl
      simp only [List.foldl_cons, digitChar_toNat y (hl y (by simp)),
        Nat.add_sub_cancel_left]
      exact ihl _ (fun x hx => hl x (by simp [hx]))
  exact step L 0 hL

theorem ofDigits_replicate_zero (k : ℕ) : Nat.ofDigits 10 (List.replicate k 0) = 0 := by
  induction k with
  | zero => simp
  | succ k ih => simp [List.replicate_succ, Nat.ofDigits_cons, ih]

theorem pad3_digits_lt (n : ℕ) : ∀ d ∈ pad3 (digits10 n), d < 10 := by
  intro d hd
  rw [digits10_eq] at hd
  rcases List.mem_append.1 hd with h | h
  · exact Nat.digits_lt_base (by norm_num) h
  · simp only [List.eq_of_mem_replicate h]; norm_num

/-- Parsing inverts formatting: `int(fmt3(n)[1:]) = n`. -/
theorem idSuffix_fmt3 (n : ℕ) : idSuffix (fmt3 n) = n := by
  unfold idSuffix fmt3
  simp only [List.drop_succ_cons, List.drop_zero]
  rw [digitsVal_map_digitChar _ (fun d hd => pad3_digits_lt n d (List.mem_reverse.1 hd)),
    foldl_base10, List.reverse_reverse]
  simp [pad3, digits10_eq, Nat.ofDigits_append, ofDigits_replicate_zero, Nat.ofDigits_digits]

theorem fmt3_injective {m n : ℕ} (h : fmt3 m = fmt3 n) : m = n := by
  have h2 := congrArg idSuffix h
  rwa [idSuffix_fmt3, idSuffix_fmt3] at h2

/-- `fmt3 n` is `P` followed by at least three digits. -/
theorem fmt3_wellFormed (n : ℕ) : WellFormedId (fmt3 n) := by
  refine ⟨?_, rfl, ?_⟩
  · show 2 ≤ ('P' :: ((pad3 (digits10 n)).reverse.map digitChar)).length
    simp only [List.length_cons, List.length_map, List.length_reverse, pad3,
      List.length_append, List.length_replicate]
    omega
  · intro c hc
    simp only [fmt3, List.drop_succ_cons, List.drop_zero, List.mem_map,
      List.mem_reverse] at hc
    obtain ⟨d, hd, rfl⟩ := hc
    exact digitChar_isDigit d (pad3_digits_lt n d hd)

theorem fmt3_length (n : ℕ) :
    (fmt3 n).data.length = 1 + (pad3 (digits10 n)).length := by
  simp [fmt3]
  omega

theorem pad3_length (l : List ℕ) : (pad3 l).length = max 3 l.length := by
  simp only [pad3, List.length_append, List.length_replicate]
  omega

theorem digits_len_le_three (n : ℕ) (h : n ≤ 999) : (Nat.digits 10 n).length ≤ 3 := by
  rcases Nat.eq_zero_or_pos n with rfl | hn
  · simp
  · have hne : n ≠ 0 := Nat.pos_iff_ne_zero.1 hn
    have h1 : n < 10 ^ 3 := by omega
    have h2 := Nat.log_lt_of_lt_pow hne h1
    rw [Nat.digits_len 10 n (by norm_num) hne]
    omega

/-! ## Lemmas: stable sort -/

theorem insertByLt_perm (lt : α → α → Bool) (a : α) (l : List α) :
    (insertByLt lt a l).Perm (a :: l) := by
  induction l with
  | nil => exact List.Perm.refl _
  | cons b bs ih =>
    unfold insertByLt
    split
    · exact ((ih.cons b).trans (List.Perm.swap a b bs))
    · exact List.Perm.refl _

theorem sortByLt_perm (lt : α → α → Bool) (l : List α) :
    (sortByLt lt l).Perm l := by
  induction l with
  | nil => exact List.Perm.refl _
  | cons a as ih => exact (insertByLt_perm lt a (sortByLt lt as)).trans (ih.cons a)

theorem mem_insertByLt (lt : α → α → Bool) (a x : α) (l : List α) :
    x ∈ insertByLt lt a l ↔ x = a ∨ x ∈ l := by
  rw [(insertByLt_perm lt a l).mem_iff, List.mem_cons]

theorem insertByLt_pairwise (lt : α → α → Bool) (le : α → α → Prop)
    (hT : ∀ a b, lt a b = true → le a b) (hF : ∀ a b, lt a b = false → le b a)
    (hTr : Transitive le) (a : α) (l : List α) (hl : l.Pairwise le) :
    (insertByLt lt a l).Pairwise le := by
  induction l with
  | nil => simp [insertByLt]
  | cons b bs ih =>
    rcases List.pairwise_cons.1 hl with ⟨hb, hbs⟩
    unfold insertByLt
    by_cases hlt : lt b a = true
    · rw [if_pos hlt]
      refine List.pairwise_cons.2 ⟨?_, ih hbs⟩
      intro x hx
      rcases (mem_insertByLt lt a x bs).1 hx with rfl | hx
      · exact hT _ _ hlt
      · exact hb x hx
    · have hlt' : lt b a = false := by simpa using hlt
      rw [if_neg hlt]
      refine List.pairwise_cons.2 ⟨?_, hl⟩
      intro x hx
      rcases List.mem_cons.1 hx with rfl | hx
      · exact hF _ _ hlt'
      · exact hTr (hF _ _ hlt') (hb x hx)

theorem sortByLt_pairwise (lt : α → α → Bool) (le : α → α → Prop)
    (hT : ∀ a b, lt a b = true → le a b) (hF : ∀ a b, lt a b = false → le b a)
    (hTr : Transitive le) (l : List α) :
    (sortByLt lt l).Pairwise le := by
  induction l with
  | nil => simp [sortByLt]
  | cons a as ih => exact insertByLt_pairwise lt le hT hF hTr a _ ih

theorem insertByLt_filter (lt : α → α → Bool) (pq : α → Bool)
    (hPF : ∀ a b, lt b a = true → pq a = true → pq b = false)
    (a : α) (l : List α) :
    (insertByLt lt a l).filter pq =
      (if pq a then [a] else []) ++ l.filter pq := by
  induction l with
  | nil => cases hpa : pq a <;> simp [insertByLt, List.filter_cons, hpa]
  | cons b bs ih =>
    unfold insertByLt
    by_cases hlt : lt b a = true
    · rw [if_pos hlt]
      by_cases hpa : pq a = true
      · have hpb : pq b = false := hPF a b hlt hpa
        simp [List.filter_cons, hpb, hpa, ih]
      · have hpa' : pq a = false := by simpa using hpa
        simp [List.filter_cons, ih, hpa']
    · rw [if_neg hlt]
      cases hpa : pq a <;> simp [List.filter_cons, hpa]

theorem sortByLt_filter (lt : α → α → Bool) (pq : α → Bool)
    (hPF : ∀ a b, lt b a = true → pq a = true → pq b = false)
    (l : List α) :
    (sortByLt lt l).filter pq = l.filter pq := by
  induction l with
  | nil => rfl
  | cons a as ih =>
    show (insertByLt lt a (sortByLt lt as)).filter pq = _
    rw [insertByLt_filter lt pq hPF, ih, List.filter_cons]
    split <;> simp

/-! ## Lemmas: maxima -/

theorem foldl_max_init (l : List ℕ) (a : ℕ) : a ≤ l.foldl max a := by
  induction l generalizing a with
  | nil => exact le_refl a
  | cons y l ih => exact le_trans (Nat.le_max_left a y) (ih (max a y))

theorem mem_le_foldl_max (l : List ℕ) : ∀ (a x : ℕ), x ∈ l → x ≤ l.foldl max a := by
  induction l with
  | nil => intro a x hx; cases hx
  | cons y l ih =>
    intro a x hx
    rcases List.mem_cons.1 hx with rfl | hx
    · exact le_trans (Nat.le_max_right a x) (foldl_max_init l (max a x))
    · exact ih (max a y) x hx

theorem maxSuffix_spec {α : Type} (d : List (String × α)) (kv : String × α)
    (h : kv ∈ d) : idSuffix kv.1 ≤ maxSuffix d :=
  mem_le_foldl_max _ 0 _ (List.mem_map_of_mem (fun kv => idSuffix kv.1) h)

theorem foldl_max_range' (n : ℕ) : (List.range' 1 n).foldl max 0 = n := by
  induction n with
  | zero => rfl
  | succ n ih =>
    rw [List.range'_1_concat, List.foldl_append, ih]
    simp [Nat.max_eq_right (Nat.le_succ n)]
    omega

/-! ## Lemmas: dictionary operations -/

theorem hasKey_iff_lookup_isSome {α : Type} (d : List (String × α)) (k : String) :
    hasKey d k = true ↔ (List.lookup k d).isSome = true := by
  simp only [hasKey, List.any_eq_true, List.lookup_isSome_iff, beq_iff_eq]
  constructor
  · rintro ⟨kv, hkv, hbeq⟩
    exact ⟨kv, hkv, hbeq.symm⟩
  · rintro ⟨kv, hkv, hbeq⟩
    exact ⟨kv, hkv, hbeq.symm⟩

theorem hasKey_of_lookup_eq_some {α : Type} {d : List (String × α)} {k : String}
    {v : α} (h : List.lookup k d = some v) : hasKey d k = true :=
  (hasKey_iff_lookup_isSome d k).2 (by simp [h])

theorem dictSet_map_fst_of_hasKey {α : Type} (d : List (String × α)) (k : String)
    (v : α) (h : hasKey d k = true) :
    (dictSet d k v).map Prod.fst = d.map Prod.fst := by
  unfold dictSet
  rw [if_pos h, List.map_map]
  refine List.map_congr_left ?_
  intro kv _
  simp only [Function.comp_apply]
  by_cases hk : (kv.1 == k) = true
  · rw [if_pos hk]
    exact (by simpa using hk : kv.1 = k).symm
  · rw [if_neg hk]

theorem dictSet_length_of_hasKey {α : Type} (d : List (String × α)) (k : String)
    (v : α) (h : hasKey d k = true) : (dictSet d k v).length = d.length := by
  unfold dictSet
  rw [if_pos h, List.length_map]

theorem dictSet_of_not_hasKey {α : Type} (d : List (String × α)) (k : String)
    (v : α) (h : hasKey d k = false) : dictSet d k v = d ++ [(k, v)] := by
  unfold dictSet
  rw [if_neg (by simp [h])]

theorem lookup_dictSet_self {α : Type} (d : List (String × α)) (k : String)
    (v : α) (h : hasKey d k = true) :
    List.lookup k (dictSet d k v) = some v := by
  unfold dictSet
  rw [if_pos h]
  induction d with
  | nil => simp [hasKey] at h
  | cons kv d ih =>
    obtain ⟨k1, v1⟩ := kv
    by_cases hk : (k1 == k) = true
    · have hk' : k1 = k := by simpa using hk
      subst hk'
      simp [List.map_cons]
    · have hne : k1 ≠ k := by simpa using hk
      have hkf : (k1 == k) = false := beq_eq_false_iff_ne.mpr hne
      have hrest : hasKey d k = true := by
        simp only [hasKey, List.any_cons, hkf, Bool.false_or] at h
        exact h
      have hkne : (k == k1) = false := beq_eq_false_iff_ne.mpr (Ne.symm hne)
      simp only [List.map_cons, if_neg hk, List.lookup_cons, hkne]
      exact ih hrest

/-! ## Lemmas: renumbering -/

theorem renumber_length {α : Type} (d : List (String × α)) :
    (renumber_patients d).length = d.length := by
  unfold renumber_patients
  by_cases hd : d.isEmpty
  · rw [if_pos hd]
    have : d = [] := by simpa using hd
    simp [this]
  · rw [if_neg hd, List.length_map, List.enumFrom_length]
    exact (sortByLt_perm _ d).length_eq

theorem renumber_map_fst {α : Type} (d : List (String × α)) :
    (renumber_patients d).map Prod.fst = seqIds d.length := by
  unfold renumber_patients
  by_cases hd : d.isEmpty
  · rw [if_pos hd]
    have : d = [] := by simpa using hd
    simp [this, seqIds]
  · rw [if_neg hd, List.map_map]
    have h1 : (Prod.fst ∘ fun p : ℕ × (String × α) => (fmt3 p.1, p.2.2)) =
        fmt3 ∘ Prod.fst := rfl
    rw [h1, ← List.map_map, List.enumFrom_map_fst,
      (sortByLt_perm _ d).length_eq]
    rfl

theorem renumber_map_snd {α : Type} (d : List (String × α)) :
    (renumber_patients d).map Prod.snd =
      (sortByLt (fun a b => decide (idSuffix a.1 < idSuffix b.1)) d).map Prod.snd := by
  unfold renumber_patients
  by_cases hd : d.isEmpty
  · have hnil : d = [] := by simpa using hd
    subst hnil
    rfl
  · rw [if_neg hd, List.map_map]
    have h1 : (Prod.snd ∘ fun p : ℕ × (String × α) => (fmt3 p.1, p.2.2)) =
        Prod.snd ∘ Prod.snd := rfl
    rw [h1, ← List.map_map, List.enumFrom_map_snd]

/-! ## Claim C1: bmi formula and verdict thresholds -/

/-- C1. For every patient with height > 0 and weight > 0, the computed bmi is
`round(weight / height², 2)` and the verdict is determined from that bmi
exactly by the thresholds, including at the exact boundaries 18.5, 25, 30. -/
theorem C1_bmi_and_verdict_thresholds (p : Patient)
    (hh : 0 < p.height) (hw : 0 < p.weight) :
    p.bmi = pyRound2 (p.weight / p.height ^ 2) ∧
    (p.bmi < 18.5 → p.verdict = "Underweight") ∧
    (18.5 ≤ p.bmi → p.bmi < 25 → p.verdict = "Healthy weight") ∧
    (25 ≤ p.bmi → p.bmi < 30 → p.verdict = "Overweight") ∧
    (30 ≤ p.bmi → p.verdict = "Obese") ∧
    (p.bmi = 18.5 → p.verdict = "Healthy weight") ∧
    (p.bmi = 25 → p.verdict = "Overweight") ∧
    (p.bmi = 30 → p.verdict = "Obese") := by
  refine ⟨rfl, ?_, ?_, ?_, ?_, ?_, ?_, ?_⟩ <;>
    · intros
      unfold Patient.verdict verdictOf
      split_ifs <;> first | rfl | (exfalso; linarith)

/-- Concrete instantiation of C1: height 1 m, weight 20 kg, bmi 20. -/
theorem C1_witness :
    (0 : ℚ) < (Patient.mk "P001" "Asha" "Pokhara" 30 "female" 1 20).height ∧
    (0 : ℚ) < (Patient.mk "P001" "Asha" "Pokhara" 30 "female" 1 20).weight ∧
    ((Patient.mk "P001" "Asha" "Pokhara" 30 "female" 1 20).bmi =
      pyRound2 ((Patient.mk "P001" "Asha" "Pokhara" 30 "female" 1 20).weight /
        (Patient.mk "P001" "Asha" "Pokhara" 30 "female" 1 20).height ^ 2) ∧
     ((Patient.mk "P001" "Asha" "Pokhara" 30 "female" 1 20).bmi < 18.5 →
      (Patient.mk "P001" "Asha" "Pokhara" 30 "female" 1 20).verdict = "Underweight") ∧
     (18.5 ≤ (Patient.mk "P001" "Asha" "Pokhara" 30 "female" 1 20).bmi →
      (Patient.mk "P001" "Asha" "Pokhara" 30 "female" 1 20).bmi < 25 →
      (Patient.mk "P001" "Asha" "Pokhara" 30 "female" 1 20).verdict = "Healthy weight") ∧
     (25 ≤ (Patient.mk "P001" "Asha" "Pokhara" 30 "female" 1 20).bmi →
      (Patient.mk "P001" "Asha" "Pokhara" 30 "female" 1 20).bmi < 30 →
      (Patient.mk "P001" "Asha" "Pokhara" 30 "female" 1 20).verdict = "Overweight") ∧
     (30 ≤ (Patient.mk "P001" "Asha" "Pokhara" 30 "female" 1 20).bmi →
      (Patient.mk "P001" "Asha" "Pokhara" 30 "female" 1 20).verdict = "Obese") ∧
     ((Patient.mk "P001" "Asha" "Pokhara" 30 "female" 1 20).bmi = 18.5 →
      (Patient.mk "P001" "Asha" "Pokhara" 30 "female" 1 20).verdict = "Healthy weight") ∧
     ((Patient.mk "P001" "Asha" "Pokhara" 30 "female" 1 20).bmi = 25 →
      (Patient.mk "P001" "Asha" "Pokhara" 30 "female" 1 20).verdict = "Overweight") ∧
     ((Patient.mk "P001" "Asha" "Pokhara" 30 "female" 1 20).bmi = 30 →
      (Patient.mk "P001" "Asha" "Pokhara" 30 "female" 1 20).verdict = "Obese")) :=
  ⟨by norm_num, by norm_num,
   C1_bmi_and_verdict_thresholds (Patient.mk "P001" "Asha" "Pokhara" 30 "female" 1 20)
     (by norm_num) (by norm_num)⟩

/-! ## Claim C9: the record store's load contract -/

/-- C9. `load()` returns an empty collection, as a normal result, when the
backing document does not exist, and fails with the corrupt-data error when
the document exists but is not well-formed JSON; the corrupt case produces no
data at all (nothing is fabricated or repaired). -/
theorem C9_load_contract (α : Type) :
    load_data (FileState.missing : FileState α) = .ok [] ∧
    load_data (FileState.malformed : FileState α) = .error Err.corruptData := ⟨rfl, rfl⟩

/-! ## Claim C8: NotFound on the three id-addressed operations -/

/-- C8. For an id absent from the collection, Get, Update and Delete all fail
with NotFound, and neither Update nor Delete writes anything: the persisted
collection is unchanged. -/
theorem C8_notfound_paths (d : List (String × StoredPatient)) (pid : String)
    (u : PatientUpdate) (h : List.lookup pid d = none) :
    view_patient d pid = .error .notFound ∧
    update_patient d pid u = .error .notFound ∧
    delete_patient d pid = .error .notFound ∧
    savedAfterUpdate d pid u = d ∧
    savedAfterDelete d pid = d := by
  refine ⟨?_, ?_, ?_, ?_, ?_⟩ <;>
    simp [view_patient, update_patient, delete_patient, savedAfterUpdate,
      savedAfterDelete, h]

/-- Concrete instantiation of C8: id `P002` absent from a 1-entry collection. -/
theorem C8_witness :
    List.lookup "P002" [("P001", spSample)] = none ∧
    (view_patient [("P001", spSample)] "P002" = .error .notFound ∧
     update_patient [("P001", spSample)] "P002" noUpdate = .error .notFound ∧
     delete_patient [("P001", spSample)] "P002" = .error .notFound ∧
     savedAfterUpdate [("P001", spSample)] "P002" noUpdate = [("P001", spSample)] ∧
     savedAfterDelete [("P001", spSample)] "P002" = [("P001", spSample)]) :=
  ⟨by decide, C8_notfound_paths [("P001", spSample)] "P002" noUpdate (by decide)⟩

/-! ## Claim C4: the next-id generator -/

/-- C4. For a collection whose keys are `P` followed by digits: the next id
is `P001` when the collection is empty, and otherwise `P` + zero-padded
3-digit rendering of one plus the maximum numeric suffix (width 4 characters
while the number fits in three digits, widening naturally beyond 999); the
new suffix strictly exceeds every existing suffix, so gapped smaller ids are
never reused. -/
theorem C4_next_id (α : Type) (d : List (String × α))
    (hwf : ∀ kv ∈ d, WellFormedId kv.1) :
    (d = [] → get_next_patient_id d = "P001") ∧
    (d ≠ [] →
      get_next_patient_id d = fmt3 (maxSuffix d + 1) ∧
      idSuffix (get_next_patient_id d) = maxSuffix d + 1 ∧
      WellFormedId (get_next_patient_id d) ∧
      (∀ kv ∈ d, idSuffix kv.1 < idSuffix (get_next_patient_id d)) ∧
      (maxSuffix d + 1 ≤ 999 → (get_next_patient_id d).data.length = 4)) := by
  constructor
  · rintro rfl
    rfl
  · intro hne
    have hemp : d.isEmpty = false := by simpa using hne
    have heq : get_next_patient_id d = fmt3 (maxSuffix d + 1) := by
      simp [get_next_patient_id, hemp]
    refine ⟨heq, ?_, ?_, ?_, ?_⟩
    · rw [heq, idSuffix_fmt3]
    · rw [heq]; exact fmt3_wellFormed _
    · intro kv hkv
      rw [heq, idSuffix_fmt3]
      exact Nat.lt_succ_of_le (maxSuffix_spec d kv hkv)
    · intro hle
      rw [heq, fmt3_length, pad3_length, digits10_eq]
      have h3 := digits_len_le_three (maxSuffix d + 1) hle
      omega

/-- Concrete instantiation of C4: a singleton collection at `P999` yields
`P1000` (the width widens past three digits), whose suffix is 1000. -/
theorem C4_witness :
    (∀ kv ∈ [("P999", spSample)], WellFormedId kv.1) ∧
    ([("P999", spSample)] ≠ ([] : List (String × StoredPatient)) →
      get_next_patient_id [("P999", spSample)] = fmt3 (maxSuffix [("P999", spSample)] + 1) ∧
      idSuffix (get_next_patient_id [("P999", spSample)]) = maxSuffix [("P999", spSample)] + 1 ∧
      WellFormedId (get_next_patient_id [("P999", spSample)]) ∧
      (∀ kv ∈ [("P999", spSample)], idSuffix kv.1 < idSuffix (get_next_patient_id [("P999", spSample)])) ∧
      (maxSuffix [("P999", spSample)] + 1 ≤ 999 →
        (get_next_patient_id [("P999", spSample)]).data.length = 4)) ∧
    get_next_patient_id [("P999", spSample)] = "P1000" :=
  ⟨by decide,
   (C4_next_id StoredPatient [("P999", spSample)] (by decide)).2,
   by decide⟩

/-! ## Claim C10: the create path ignores the client-supplied id -/

/-- C10 counterexample. The claim asserts the create body must carry a
non-empty id; in fact validation accepts the empty string as id (no length
constraint exists in the model), and the request is then processed normally,
returning the auto-generated id. -/
theorem C10_counterexample_empty_id_accepted :
    parsePatient rawEmptyId = .ok (Patient.mk "" "Asha" "Pokhara" 30 "female" 1 20) ∧
    (create_patient [] (Patient.mk "" "Asha" "Pokhara" 30 "female" 1 20)).1 = "P001" := by
  constructor
  · rfl
  · rfl

/-- C10 (amended). The create body is validated as a full `Patient` and the
id field must be present, but its content (any string, the empty string
included) does not affect validation; the client-supplied id is entirely
ignored: two create requests identical except for the id produce identical
results, and the returned id is the auto-generated next id. -/
theorem C10_create_ignores_id (d : List (String × StoredPatient)) (p : Patient)
    (id2 : String) (r : RawPatient) :
    create_patient d { p with id := id2 } = create_patient d p ∧
    (create_patient d p).1 = get_next_patient_id d ∧
    (∀ q, parsePatient r = .ok q →
      parsePatient { r with id := id2 } = .ok { q with id := id2 }) ∧
    (∀ e, parsePatient r = .error e →
      parsePatient { r with id := id2 } = .error e) := by
  refine ⟨rfl, rfl, ?_, ?_⟩
  · intro q hq
    unfold parsePatient at hq ⊢
    by_cases hc : 0 < r.age ∧ r.gender ∈ genders ∧ 0 < r.height ∧ 0 < r.weight
    · rw [if_pos hc] at hq
      rw [if_pos hc]
      cases hq
      rfl
    · rw [if_neg hc] at hq
      cases hq
  · intro e he
    unfold parsePatient at he ⊢
    by_cases hc : 0 < r.age ∧ r.gender ∈ genders ∧ 0 < r.height ∧ 0 < r.weight
    · rw [if_pos hc] at he
      cases he
    · rw [if_neg hc] at he
      rw [if_neg hc]
      exact he

/-- Concrete instantiation of C10: creating with an arbitrary id field gives
the same result as with `pSample`'s id, and returns the generated id. -/
theorem C10_witness :
    create_patient [] { pSample with id := "ZZZZ" } = create_patient [] pSample ∧
    (create_patient [] pSample).1 = get_next_patient_id ([] : List (String × StoredPatient)) ∧
    parsePatient { rawEmptyId with id := "ZZZZ" } =
      .ok { Patient.mk "" "Asha" "Pokhara" 30 "female" 1 20 with id := "ZZZZ" } :=
  ⟨(C10_create_ignores_id [] pSample "ZZZZ" rawEmptyId).1,
   (C10_create_ignores_id [] pSample "ZZZZ" rawEmptyId).2.1,
   (C10_create_ignores_id [] pSample "ZZZZ" rawEmptyId).2.2.1
     (Patient.mk "" "Asha" "Pokhara" 30 "female" 1 20) rfl⟩

/-! ## Claim C6: strict weight > 0 validation -/

/-- C6. The canonical variant rejects weight ≤ 0 on create and both variants
reject it on update, but the older variant's `Patient` model omits `gt=0` on
`weight`: its create path validates a body with weight −5 successfully and
persists the negative weight, contradicting the claim that no zero or
negative weight can be persisted through create. -/
theorem C6_mainpy_accepts_nonpositive_weight :
    parsePatient rawBadWeight = .error .validationError ∧
    parsePatientUpdate (onlyWeight (-5)) = .error .validationError ∧
    parsePatientMain rawBadWeight = .ok pBadWeight ∧
    create_patient_main [] pBadWeight = .ok [("P001", dumpPatient pBadWeight)] ∧
    (dumpPatient pBadWeight).weight = -5 ∧
    List.lookup "P001" [("P001", dumpPatient pBadWeight)] = some (dumpPatient pBadWeight) := by
  refine ⟨rfl, rfl, rfl, rfl, rfl, rfl⟩

/-! ## Claim C5: the sort handler -/

/-- C5 counterexample. With two distinct records tied on `height`, descending
sort returns them in original order (Python's `reverse=True` keeps ties
stable), which is not the reversal of the ascending result: the claim's
"that sequence reversed when order = desc" fails at this input. -/
theorem C5_counterexample_desc_not_reverse :
    sort_patients "height" "asc" (.ok tieColl) = .ok [sortRecA, sortRecB] ∧
    sort_patients "height" "desc" (.ok tieColl) = .ok [sortRecA, sortRecB] ∧
    [sortRecA, sortRecB].reverse ≠ [sortRecA, sortRecB] := by
  refine ⟨rfl, rfl, by decide⟩

/-- C5 (amended). Sort validates `sort_by` then `order` before the collection
is read (an invalid argument yields InvalidArgument whatever the load result,
even a corrupt one); with valid arguments it returns the values stably sorted
by the chosen field — ascending for `asc`, and for `desc` the stable sort by
the descending comparison, in which records tied on the chosen field keep
their original relative order (this equals the reversed ascending sequence
only when the chosen field's values are distinct); a record missing the
chosen field is treated as having value 0. -/
theorem C5_sort_contract (sort_by order : String)
    (loaded : Except Err (List (String × SortRec))) :
    (sort_by ∉ valid_fields → sort_patients sort_by order loaded = .error .invalidArgument) ∧
    (order ∉ (["asc", "desc"] : List String) →
      sort_patients sort_by order loaded = .error .invalidArgument) ∧
    (∀ d, sort_by ∈ valid_fields → loaded = .ok d →
      (∃ res, sort_patients sort_by "asc" loaded = .ok res ∧
        res.Perm (d.map Prod.snd) ∧
        res.Pairwise (fun a b => getNum a sort_by ≤ getNum b sort_by) ∧
        (∀ q : ℚ, res.filter (fun x => decide (getNum x sort_by = q)) =
          (d.map Prod.snd).filter (fun x => decide (getNum x sort_by = q)))) ∧
      (∃ res, sort_patients sort_by "desc" loaded = .ok res ∧
        res.Perm (d.map Prod.snd) ∧
        res.Pairwise (fun a b => getNum b sort_by ≤ getNum a sort_by) ∧
        (∀ q : ℚ, res.filter (fun x => decide (getNum x sort_by = q)) =
          (d.map Prod.snd).filter (fun x => decide (getNum x sort_by = q))))) ∧
    (∀ r : SortRec, List.lookup sort_by r = none → getNum r sort_by = 0) ∧
    sort_patients_default sort_by loaded = sort_patients sort_by "asc" loaded := by
  refine ⟨?_, ?_, ?_, ?_, rfl⟩
  · intro h
    unfold sort_patients
    rw [if_neg h]
  · intro h
    unfold sort_patients
    by_cases hf : sort_by ∈ valid_fields
    · rw [if_pos hf, if_neg h]
    · rw [if_neg hf]
  · rintro d hf rfl
    constructor
    · unfold sort_patients
      rw [if_pos hf, if_pos (show ("asc" : String) ∈ (["asc", "desc"] : List String) by decide)]
      have hrev : (("asc" : String) == "desc") = false := rfl
      refine ⟨_, rfl, ?_, ?_, ?_⟩ <;>
        simp only [pySorted, hrev, Bool.false_eq_true, if_false]
      · exact sortByLt_perm _ _
      · refine sortByLt_pairwise _ _ ?_ ?_ ?_ _
        · intro a b h
          exact le_of_lt (of_decide_eq_true h)
        · intro a b h
          exact le_of_not_lt (of_decide_eq_false h)
        · exact fun a b c hab hbc => le_trans hab hbc
      · intro q
        refine sortByLt_filter _ _ ?_ _
        intro a b hlt hpa
        have h1 : getNum b sort_by < getNum a sort_by := of_decide_eq_true hlt
        have h2 : getNum a sort_by = q := of_decide_eq_true hpa
        exact decide_eq_false (by rw [← h2]; exact ne_of_lt h1)
    · unfold sort_patients
      rw [if_pos hf, if_pos (show ("desc" : String) ∈ (["asc", "desc"] : List String) by decide)]
      have hrev : (("desc" : String) == "desc") = true := rfl
      refine ⟨_, rfl, ?_, ?_, ?_⟩ <;>
        simp only [pySorted, hrev, if_true]
      · exact sortByLt_perm _ _
      · refine sortByLt_pairwise _ _ ?_ ?_ ?_ _
        · intro a b h
          exact le_of_lt (of_decide_eq_true h)
        · intro a b h
          exact le_of_not_lt (of_decide_eq_false h)
        · exact fun a b c hab hbc => le_trans hbc hab
      · intro q
        refine sortByLt_filter _ _ ?_ _
        intro a b hlt hpa
        have h1 : getNum a sort_by < getNum b sort_by := of_decide_eq_true hlt
        have h2 : getNum a sort_by = q := of_decide_eq_true hpa
        exact decide_eq_false (by rw [← h2]; exact (ne_of_lt h1).symm)
  · intro r h
    simp [getNum, h]

/-- Concrete instantiation of C5: invalid field and invalid order both fail
with InvalidArgument, even when the load result is a corrupt-data error. -/
theorem C5_witness :
    sort_patients "age" "asc" (.ok tieColl) = .error .invalidArgument ∧
    sort_patients "height" "up" (.ok tieColl) = .error .invalidArgument ∧
    sort_patients "age" "asc" (.error .corruptData) = .error .invalidArgument :=
  ⟨(C5_sort_contract "age" "asc" (.ok tieColl)).1 (by decide),
   (C5_sort_contract "height" "up" (.ok tieColl)).2.1 (by decide),
   (C5_sort_contract "age" "asc" (.error .corruptData)).1 (by decide)⟩

/-! ## Claim C7: update frame conditions -/

/-- C7. For an existing patient and a patch supplying only a positive weight,
the update succeeds and the stored record keeps name, city, age, gender and
height unchanged while weight becomes the new value and bmi/verdict are
recomputed from the existing height and the new weight; more generally, any
field absent from a successful patch retains its stored value. -/
theorem C7_update_weight_frame (d : List (String × StoredPatient)) (pid : String)
    (e : StoredPatient) (h : List.lookup pid d = some e) :
    (∀ w : ℚ, 0 < w → 0 < e.age → e.gender ∈ genders → 0 < e.height →
      ∃ d' s, update_patient d pid (onlyWeight w) = .ok (d', s) ∧
        List.lookup pid d' = some s ∧
        s.name = e.name ∧ s.city = e.city ∧ s.age = e.age ∧
        s.gender = e.gender ∧ s.height = e.height ∧ s.weight = w ∧
        s.bmi = pyRound2 (w / e.height ^ 2) ∧
        s.verdict = verdictOf (pyRound2 (w / e.height ^ 2))) ∧
    (∀ u d' s, update_patient d pid u = .ok (d', s) →
      (u.name = none → s.name = e.name) ∧ (u.city = none → s.city = e.city) ∧
      (u.age = none → s.age = e.age) ∧ (u.gender = none → s.gender = e.gender) ∧
      (u.height = none → s.height = e.height) ∧
      (u.weight = none → s.weight = e.weight)) := by
  constructor
  · intro w hw ha hg hh
    have hv : validFields (applyPatch pid e (onlyWeight w)) := ⟨ha, hg, hh, hw⟩
    refine ⟨dictSet d pid (dumpPatient (applyPatch pid e (onlyWeight w))),
      dumpPatient (applyPatch pid e (onlyWeight w)), ?_, ?_,
      rfl, rfl, rfl, rfl, rfl, rfl, rfl, rfl⟩
    · simp only [update_patient, h]
      rw [if_pos hv]
    · exact lookup_dictSet_self d pid _ (hasKey_of_lookup_eq_some h)
  · intro u d' s heq
    simp only [update_patient, h] at heq
    by_cases hv : validFields (applyPatch pid e u)
    · rw [if_pos hv] at heq
      injection heq with hps
      obtain ⟨h1, h2⟩ := Prod.mk.inj hps
      subst h2
      refine ⟨fun hn => ?_, fun hn => ?_, fun hn => ?_, fun hn => ?_,
        fun hn => ?_, fun hn => ?_⟩ <;> simp [dumpPatient, applyPatch, hn]
    · rw [if_neg hv] at heq
      exact Except.noConfusion heq

/-- Concrete instantiation of C7: setting only weight 80 on the entry at
`P001` recomputes bmi/verdict and leaves the other fields untouched. -/
theorem C7_witness :
    ∃ d' s, update_patient [("P001", spSample)] "P001" (onlyWeight 80) = .ok (d', s) ∧
      List.lookup "P001" d' = some s ∧
      s.name = spSample.name ∧ s.city = spSample.city ∧ s.age = spSample.age ∧
      s.gender = spSample.gender ∧ s.height = spSample.height ∧ s.weight = 80 ∧
      s.bmi = pyRound2 (80 / spSample.height ^ 2) ∧
      s.verdict = verdictOf (pyRound2 (80 / spSample.height ^ 2)) :=
  (C7_update_weight_frame [("P001", spSample)] "P001" spSample rfl).1 80
    (by decide) (by decide) (by decide) (by decide)

/-! ## Claim C3: the delete contract -/

/-- C3. Deleting a present id removes exactly that entry, sorts the remaining
entries by ascending original numeric id suffix, reassigns ids `P001, P002, …`
in that order with every entry's non-id attributes unchanged, saves the
result, and returns the deleted entry's pre-removal fields together with the
resulting collection size. -/
theorem C3_delete_contract (α : Type) (d : List (String × α)) (pid : String)
    (v : α) (h : List.lookup pid d = some v) :
    ∃ d', delete_patient d pid = .ok (v, d', d'.length) ∧
      savedAfterDelete d pid = d' ∧
      d'.length = d.length - 1 ∧
      ∃ l : List (String × α), l.Perm (d.eraseP fun kv => kv.1 == pid) ∧
        l.Pairwise (fun a b => idSuffix a.1 ≤ idSuffix b.1) ∧
        d'.map Prod.fst = seqIds d'.length ∧
        d'.map Prod.snd = l.map Prod.snd := by
  have hdel : delete_patient d pid =
      .ok (v, renumber_patients (d.eraseP fun kv => kv.1 == pid),
        (renumber_patients (d.eraseP fun kv => kv.1 == pid)).length) := by
    simp only [delete_patient, h]
  obtain ⟨l₁, l₂, hsplit, -⟩ := List.lookup_eq_some_iff.1 h
  have hmem : (pid, v) ∈ d := by
    rw [hsplit]
    exact List.mem_append_right _ (List.mem_cons_self _ _)
  have hlen : (d.eraseP fun kv => kv.1 == pid).length = d.length - 1 :=
    List.length_eraseP_of_mem hmem (by simp)
  refine ⟨renumber_patients (d.eraseP fun kv => kv.1 == pid), hdel, ?_, ?_,
    sortByLt (fun a b => decide (idSuffix a.1 < idSuffix b.1))
      (d.eraseP fun kv => kv.1 == pid),
    sortByLt_perm _ _, ?_, ?_, ?_⟩
  · simp [savedAfterDelete, hdel]
  · rw [renumber_length]
    exact hlen
  · refine sortByLt_pairwise _ _ ?_ ?_ ?_ _
    · intro a b hab
      exact le_of_lt (of_decide_eq_true hab)
    · intro a b hab
      exact le_of_not_lt (of_decide_eq_false hab)
    · exact fun a b c hab hbc => le_trans hab hbc
  · rw [renumber_map_fst, renumber_length]
  · exact renumber_map_snd _

/-- Concrete instantiation of C3: deleting `P002` from a dense three-entry
collection. -/
theorem C3_witness :
    ∃ d', delete_patient threeColl "P002" = .ok (spB, d', d'.length) ∧
      savedAfterDelete threeColl "P002" = d' ∧
      d'.length = threeColl.length - 1 ∧
      ∃ l : List (String × StoredPatient),
        l.Perm (threeColl.eraseP fun kv => kv.1 == "P002") ∧
        l.Pairwise (fun a b => idSuffix a.1 ≤ idSuffix b.1) ∧
        d'.map Prod.fst = seqIds d'.length ∧
        d'.map Prod.snd = l.map Prod.snd :=
  C3_delete_contract StoredPatient threeColl "P002" spB rfl

/-! ## Claim C2: the dense sequential id invariant -/

theorem create_preserves_keys (d : List (String × StoredPatient)) (p : Patient)
    (hkeys : d.map Prod.fst = seqIds d.length) :
    (create_patient d p).2.map Prod.fst = seqIds (create_patient d p).2.length := by
  by_cases hd : d.isEmpty
  · have hnil : d = [] := by simpa using hd
    subst hnil
    show (["P001"] : List String) = seqIds 1
    decide
  · have hne : d ≠ [] := by simpa using hd
    have hemp : d.isEmpty = false := by simpa using hne
    have hmax : maxSuffix d = d.length := by
      unfold maxSuffix
      have h1 : (d.map fun kv => idSuffix kv.1) = (d.map Prod.fst).map idSuffix := by
        rw [List.map_map]
        rfl
      rw [h1, hkeys]
      unfold seqIds
      rw [List.map_map]
      have h2 : (List.range' 1 d.length).map (idSuffix ∘ fmt3) = List.range' 1 d.length :=
        (List.map_congr_left fun i _ => idSuffix_fmt3 i).trans (List.map_id _)
      rw [h2, foldl_max_range']
    have hfresh : hasKey d (fmt3 (d.length + 1)) = false := by
      by_contra hk
      have hk' : hasKey d (fmt3 (d.length + 1)) = true := by simpa using hk
      simp only [hasKey, List.any_eq_true] at hk'
      obtain ⟨kv, hkv, hbeq⟩ := hk'
      have hkeq : kv.1 = fmt3 (d.length + 1) := by simpa using hbeq
      have hmem2 : kv.1 ∈ d.map Prod.fst := List.mem_map_of_mem Prod.fst hkv
      rw [hkeys] at hmem2
      unfold seqIds at hmem2
      obtain ⟨i, hi, hface⟩ := List.mem_map.1 hmem2
      have hii := fmt3_injective (hface.trans hkeq)
      have hib := List.mem_range'_1.1 hi
      omega
    have hnid : get_next_patient_id d = fmt3 (d.length + 1) := by
      simp [get_next_patient_id, hemp, hmax]
    show (dictSet d (get_next_patient_id d) (dumpPatient p)).map Prod.fst =
      seqIds (dictSet d (get_next_patient_id d) (dumpPatient p)).length
    rw [hnid, dictSet_of_not_hasKey _ _ _ hfresh, List.map_append, hkeys]
    have hlen2 : (d ++ [(fmt3 (d.length + 1), dumpPatient p)]).length = d.length + 1 := by
      simp
    rw [hlen2]
    unfold seqIds
    rw [List.range'_1_concat, List.map_append, Nat.add_comm 1 d.length]
    rfl

/-- C2. Every collection state reachable from the empty collection by
successful create, update and delete operations has as its keys exactly the
dense sequential run `P001..P{n}` (in order), where n is the collection size;
each mutating operation preserves this invariant. -/
theorem C2_reachable_ids_dense (d : List (String × StoredPatient))
    (h : Reachable d) : d.map Prod.fst = seqIds d.length := by
  induction h with
  | empty => rfl
  | create d p hr ih => exact create_preserves_keys d p ih
  | update d pid u d' s hr heq ih =>
    cases hcase : List.lookup pid d with
    | none => simp [update_patient, hcase] at heq
    | some e =>
      simp only [update_patient, hcase] at heq
      by_cases hv : validFields (applyPatch pid e u)
      · rw [if_pos hv] at heq
        injection heq with hps
        obtain ⟨h1, h2⟩ := Prod.mk.inj hps
        subst h1
        rw [dictSet_map_fst_of_hasKey _ _ _ (hasKey_of_lookup_eq_some hcase),
          dictSet_length_of_hasKey _ _ _ (hasKey_of_lookup_eq_some hcase)]
        exact ih
      · rw [if_neg hv] at heq
        exact Except.noConfusion heq
  | delete d pid x d' m hr heq ih =>
    cases hcase : List.lookup pid d with
    | none => simp [delete_patient, hcase] at heq
    | some e =>
      simp only [delete_patient, hcase] at heq
      injection heq with hps
      obtain ⟨h1, h2⟩ := Prod.mk.inj hps
      obtain ⟨h3, h4⟩ := Prod.mk.inj h2
      subst h3
      rw [renumber_map_fst, renumber_length]

/-- Concrete instantiation of C2: the state after one create from empty. -/
theorem C2_witness :
    (create_patient [] pSample).2.map Prod.fst =
      seqIds (create_patient [] pSample).2.length :=
  C2_reachable_ids_dense (create_patient [] pSample).2
    (Reachable.create [] pSample Reachable.empty)
